import Mathlib

/-!
Verification of the product CRUD system (Firebase Firestore client).

The definitions below are shallow embeddings of the JavaScript functions in
`crud-operations.js` (validation, CRUD wrappers, search, statistics) and
`app.js` (form submission, reconnect logic).  JavaScript runtime values that
the code inspects with `typeof`, truthiness tests and `isNaN` are modelled by
the inductive type `JSVal`; JavaScript numbers are modelled as rationals plus
an explicit NaN value (floating point rounding plays no role in any property
proved here).  The remote Firestore collection is modelled as an in-memory
association list of documents.
-/

namespace CrudSystem

/-- A JavaScript runtime value as far as the CRUD code inspects it:
strings, numbers (rationals), the NaN number, `undefined`, `null`,
and booleans. -/
inductive JSVal where
  | vstr : String → JSVal
  | vnum : ℚ → JSVal
  | vnan : JSVal
  | vundef : JSVal
  | vnull : JSVal
  | vbool : Bool → JSVal
  deriving DecidableEq, Repr

/-- JavaScript truthiness: `!v` in the source is `jsFalsy v`. -/
def jsFalsy : JSVal → Bool
  | .vstr s => s = ""
  | .vnum q => q = 0
  | .vnan => true
  | .vundef => true
  | .vnull => true
  | .vbool b => !b

/-- The JavaScript string type test, `typeof v` being the string type. -/
def isStringType : JSVal → Bool
  | .vstr _ => true
  | _ => false

/-- The JavaScript number type test (NaN is of number type in JavaScript). -/
def isNumberType : JSVal → Bool
  | .vnum _ => true
  | .vnan => true
  | _ => false

/-- JavaScript `isNaN(v)` on a number-typed value. -/
def jsIsNaN : JSVal → Bool
  | .vnan => true
  | _ => false

/-- Whether `v < 0`, on a number-typed value; `NaN < 0` is false in JavaScript. -/
def jsNumLtZero : JSVal → Bool
  | .vnum q => decide (q < 0)
  | _ => false

/-- The price bound `999999.99` as a rational. -/
def priceMax : ℚ := mkRat 99999999 100

/-- Whether `v > 999999.99`, on a number-typed value; comparisons with NaN are false. -/
def jsNumGtPriceMax : JSVal → Bool
  | .vnum q => decide (q > priceMax)
  | _ => false

/-- The string payload of a string-typed value (only read under a
string-type guard in the source). -/
def strOf : JSVal → String
  | .vstr s => s
  | _ => ""

/-- The whitespace characters removed by JavaScript `String.prototype.trim`
(restricted to the ASCII range, which is all the repository ever exercises). -/
def isJsWhitespace (c : Char) : Bool :=
  c = ' ' || c = '\t' || c = '\n' || c = '\r' || c = '\x0b' || c = '\x0c'

/-- Trim on a list of characters: drop whitespace from both ends. -/
def trimList (l : List Char) : List Char :=
  ((l.dropWhile isJsWhitespace).reverse.dropWhile isJsWhitespace).reverse

/-- JavaScript `s.trim()`. -/
def jsTrim (s : String) : String :=
  String.mk (trimList s.toList)

/-- JavaScript `s.toLowerCase()` (ASCII case mapping). -/
def jsToLower (s : String) : String :=
  String.mk (s.toList.map Char.toLower)

/-- Whether `needle` occurs as a contiguous run inside `hay`, via an explicit
prefix check (`isPrefixB n h` decides whether `n` starts `h`). -/
def isPrefixB : List Char → List Char → Bool
  | [], _ => true
  | _ :: _, [] => false
  | a :: as, b :: bs => a = b && isPrefixB as bs

/-- JavaScript `hay.includes(needle)` on character lists. -/
def includesB : List Char → List Char → Bool
  | needle, [] => needle.isEmpty
  | needle, b :: rest => isPrefixB needle (b :: rest) || includesB needle rest

/-- JavaScript `hay.includes(needle)` on strings. -/
def strIncludes (hay needle : String) : Bool :=
  includesB needle.toList hay.toList

/-- The four user-supplied fields destructured from a `productData` object.
Each field is an arbitrary JavaScript value (the code checks types itself). -/
structure ProductData where
  name : JSVal
  description : JSVal
  price : JSVal
  category : JSVal
  deriving DecidableEq, Repr

/-- Result shape of `validateProductData`: `{ isValid, errors }`. -/
structure ValidationResult where
  isValid : Bool
  errors : List String
  deriving DecidableEq, Repr

/-- Function `validateProductData` from `crud-operations.js` lines 261-307: a pure
function accumulating one error message per violated rule, in source order
(name, description, price, category).  The argument is `none` when
`productData` is missing or not an object. -/
def validateProductData (productData : Option ProductData) : ValidationResult :=
  match productData with
  | none => { isValid := false, errors := ["Los datos del producto son requeridos"] }
  | some pd =>
    let nameErrs : List String :=
      if jsFalsy pd.name || !isStringType pd.name || (jsTrim (strOf pd.name)).length == 0 then
        ["El nombre del producto es requerido"]
      else if (jsTrim (strOf pd.name)).length < 2 then
        ["El nombre debe tener al menos 2 caracteres"]
      else if (jsTrim (strOf pd.name)).length > 100 then
        ["El nombre no puede exceder 100 caracteres"]
      else []
    let descErrs : List String :=
      if jsFalsy pd.description || !isStringType pd.description ||
          (jsTrim (strOf pd.description)).length == 0 then
        ["La descripción del producto es requerida"]
      else if (jsTrim (strOf pd.description)).length < 10 then
        ["La descripción debe tener al menos 10 caracteres"]
      else if (jsTrim (strOf pd.description)).length > 500 then
        ["La descripción no puede exceder 500 caracteres"]
      else []
    let priceErrs : List String :=
      if !isNumberType pd.price || jsIsNaN pd.price then
        ["El precio debe ser un número válido"]
      else if jsNumLtZero pd.price then
        ["El precio no puede ser negativo"]
      else if jsNumGtPriceMax pd.price then
        ["El precio no puede exceder $999,999.99"]
      else []
    let catErrs : List String :=
      if jsFalsy pd.category || !isStringType pd.category ||
          (jsTrim (strOf pd.category)).length == 0 then
        ["La categoría del producto es requerida"]
      else []
    let errors := nameErrs ++ descErrs ++ priceErrs ++ catErrs
    { isValid := errors.isEmpty, errors := errors }

/-- A value stored in a Firestore document field: trimmed strings, parsed
numbers (possibly NaN), or the `serverTimestamp()` sentinel. -/
inductive FieldVal where
  | str : String → FieldVal
  | num : ℚ → FieldVal
  | numNaN : FieldVal
  | serverTimestamp : FieldVal
  deriving DecidableEq, Repr

/-- JavaScript `parseFloat(price)` as applied in the source, where `price` is already
guarded to be of number type: finite numbers round-trip unchanged through
their string form and NaN stays NaN. -/
def parseFloatNum : JSVal → FieldVal
  | .vnum q => .num q
  | _ => .numNaN

/-- A Firestore document body: an association list from field names to
values (JavaScript object literals preserve insertion order). -/
abbrev DocBody := List (String × FieldVal)

/-- The modelled remote collection: documents keyed by id, plus the counter
generating fresh ids. -/
structure Store where
  docs : List (String × DocBody)
  nextId : Nat
  deriving DecidableEq, Repr

/-- Modelled Firestore `addDoc`: appends a document under a fresh id and
returns the assigned id. -/
def addDoc (s : Store) (body : DocBody) : Store × String :=
  let id := "doc" ++ toString s.nextId
  ({ docs := s.docs ++ [(id, body)], nextId := s.nextId + 1 }, id)

/-- Errors thrown by the CRUD wrappers: client-side validation failures
versus failures of the underlying store call. -/
inductive CrudError where
  | validation : String → CrudError
  | store : String → CrudError
  deriving DecidableEq, Repr

/-- Function `createProduct` from `crud-operations.js` lines 44-90: validates the
required fields (throwing the first violation), builds `productToSave` with
trimmed strings, the parsed price and two `serverTimestamp()` fields, inserts
it with `addDoc` and returns the assigned id.  The argument is `none` when
`productData` is missing or not an object. -/
def createProduct (s : Store) (productData : Option ProductData) :
    Except CrudError (Store × String) :=
  match productData with
  | none => .error (.validation "Los datos del producto son requeridos")
  | some pd =>
    if jsFalsy pd.name || !isStringType pd.name || (jsTrim (strOf pd.name)).length == 0 then
      .error (.validation "El nombre del producto es requerido")
    else if jsFalsy pd.description || !isStringType pd.description ||
        (jsTrim (strOf pd.description)).length == 0 then
      .error (.validation "La descripción del producto es requerida")
    else if !isNumberType pd.price || jsNumLtZero pd.price then
      .error (.validation "El precio debe ser un número válido mayor o igual a 0")
    else if jsFalsy pd.category || !isStringType pd.category ||
        (jsTrim (strOf pd.category)).length == 0 then
      .error (.validation "La categoría del producto es requerida")
    else
      let productToSave : DocBody :=
        [("name", .str (jsTrim (strOf pd.name))),
         ("description", .str (jsTrim (strOf pd.description))),
         ("price", parseFloatNum pd.price),
         ("category", .str (jsTrim (strOf pd.category))),
         ("createdAt", .serverTimestamp),
         ("updatedAt", .serverTimestamp)]
      .ok (addDoc s productToSave)

/-- Function `updateProduct` from `crud-operations.js` lines 172-222: validates the
id and the same four fields with the same checks as `createProduct`, then
issues `updateDoc` with `updateData` (four user fields plus a refreshed
`updatedAt`; no `createdAt` key).  The result is the `updateData` payload
passed to `updateDoc`. -/
def updateProduct (productId : JSVal) (productData : Option ProductData) :
    Except CrudError DocBody :=
  if jsFalsy productId || !isStringType productId then
    .error (.validation "El ID del producto es requerido")
  else
    match productData with
    | none => .error (.validation "Los datos del producto son requeridos")
    | some pd =>
      if jsFalsy pd.name || !isStringType pd.name || (jsTrim (strOf pd.name)).length == 0 then
        .error (.validation "El nombre del producto es requerido")
      else if jsFalsy pd.description || !isStringType pd.description ||
          (jsTrim (strOf pd.description)).length == 0 then
        .error (.validation "La descripción del producto es requerida")
      else if !isNumberType pd.price || jsNumLtZero pd.price then
        .error (.validation "El precio debe ser un número válido mayor o igual a 0")
      else if jsFalsy pd.category || !isStringType pd.category ||
          (jsTrim (strOf pd.category)).length == 0 then
        .error (.validation "La categoría del producto es requerida")
      else
        .ok [("name", .str (jsTrim (strOf pd.name))),
             ("description", .str (jsTrim (strOf pd.description))),
             ("price", parseFloatNum pd.price),
             ("category", .str (jsTrim (strOf pd.category))),
             ("updatedAt", .serverTimestamp)]

/-- Set one field of a document body, replacing the first existing entry
with that key or appending a new one. -/
def setField : DocBody → String → FieldVal → DocBody
  | [], k, v => [(k, v)]
  | (k', v') :: rest, k, v =>
    if k' = k then (k', v) :: rest else (k', v') :: setField rest k v

/-- Modelled Firestore `updateDoc` merge: apply every key of the payload to
the document body in order; keys absent from the payload are untouched. -/
def applyUpdate (doc : DocBody) (payload : DocBody) : DocBody :=
  payload.foldl (fun d kv => setField d kv.1 kv.2) doc

/-- Read one field of a document body (first entry with the key). -/
def lookupField (doc : DocBody) (k : String) : Option FieldVal :=
  match doc.find? (fun p => p.1 = k) with
  | some p => some p.2
  | none => none

/-- Modelled Firestore `deleteDoc` against the in-memory store: removing a
document id always succeeds, whether or not a document with that id exists. -/
def deleteDocFs (s : Store) (id : String) : Except String Store :=
  .ok { s with docs := s.docs.filter (fun p => p.1 ≠ id) }

/-- Function `deleteProduct` from `crud-operations.js` lines 230-247, parametrized by
the Firestore `deleteDoc` call it wraps (so that provider failures can be
modelled): validates the id, then issues the delete unconditionally — there
is no read of the collection before the call — and wraps a provider failure
as a store error. -/
def deleteProduct (deleteDocCall : String → Except String Store) (productId : JSVal) :
    Except CrudError Store :=
  if jsFalsy productId || !isStringType productId then
    .error (.validation "El ID del producto es requerido")
  else
    match deleteDocCall (strOf productId) with
    | .ok s' => .ok s'
    | .error code => .error (.store code)

/-- A product record as delivered by the subscription and consumed by the
client-side helpers: id plus the four user fields, all well-formed. -/
structure Product where
  id : String
  name : String
  description : String
  price : ℚ
  category : String
  deriving DecidableEq, Repr

/-- Function `searchProducts` from `crud-operations.js` lines 373-387: a missing or
non-string search text returns the list unchanged; otherwise the text is
lowercased then trimmed, and a record is kept when that needle occurs in the
lowercased name, description or category. -/
def searchProducts (searchText : JSVal) (products : List Product) : List Product :=
  if jsFalsy searchText || !isStringType searchText then
    products
  else
    let searchLower := jsTrim (jsToLower (strOf searchText))
    products.filter (fun product =>
      strIncludes (jsToLower product.name) searchLower ||
      strIncludes (jsToLower product.description) searchLower ||
      strIncludes (jsToLower product.category) searchLower)

/-- Increment the count of one category in the `stats.categories` object,
initializing it to 1 the first time the category is seen (object keys keep
insertion order). -/
def bumpCategory : List (String × Nat) → String → List (String × Nat)
  | [], c => [(c, 1)]
  | (k, n) :: rest, c =>
    if k = c then (k, n + 1) :: rest else (k, n) :: bumpCategory rest c

/-- Read the count of one category from the category map (0 when absent). -/
def categoryCount (m : List (String × Nat)) (c : String) : Nat :=
  match m.find? (fun p => p.1 = c) with
  | some p => p.2
  | none => 0

/-- Result shape of `getProductStats`. -/
structure ProductStats where
  total : Nat
  averagePrice : ℚ
  categories : List (String × Nat)
  totalValue : ℚ
  deriving DecidableEq, Repr

/-- One step of the `forEach` loop in `getProductStats`: accumulate
`totalPrice`, `totalValue` and the category counts. -/
def statsStep (acc : ℚ × ℚ × List (String × Nat)) (product : Product) :
    ℚ × ℚ × List (String × Nat) :=
  (acc.1 + product.price, acc.2.1 + product.price, bumpCategory acc.2.2 product.category)

/-- Function `getProductStats` from `crud-operations.js` lines 412-453: zeros for an
empty list, otherwise one pass accumulating the price sum and category
counts, with `averagePrice = totalPrice / products.length`. -/
def getProductStats (products : List Product) : ProductStats :=
  if products.length = 0 then
    { total := products.length, averagePrice := 0, categories := [], totalValue := 0 }
  else
    let acc := products.foldl statsStep (0, 0, [])
    { total := products.length,
      averagePrice := acc.1 / (products.length : ℚ),
      categories := acc.2.2,
      totalValue := acc.2.1 }

/-- Map one validation error message to the form field it annotates, the way
`showValidationErrors` in `app.js` lines 538-553 dispatches on the message
text. -/
def errorField (e : String) : Option String :=
  if strIncludes (jsToLower e) "nombre" then some "name"
  else if strIncludes (jsToLower e) "descripción" then some "description"
  else if strIncludes (jsToLower e) "precio" then some "price"
  else if strIncludes (jsToLower e) "categoría" then some "category"
  else none

/-- The set of fields `showValidationErrors` annotates for a given error
list. -/
def annotatedFields (errors : List String) : List String :=
  errors.filterMap errorField

/-- Outcome of one run of `handleFormSubmit`: either validation blocked the
submission (annotating fields, invoking no remote operation), or exactly one
remote call is made — `updateProduct` when editing, `createProduct` when
creating. -/
inductive SubmitOutcome where
  | blocked : List String → List String → SubmitOutcome
  | callsUpdate : Option String → ProductData → SubmitOutcome
  | callsCreate : ProductData → SubmitOutcome
  deriving DecidableEq, Repr

/-- Function `handleFormSubmit` from `app.js` lines 195-230, up to the remote call it
dispatches: validate the form data; on failure show the field annotations and
return; otherwise call `updateProduct(currentEditId, formData)` when editing
and `createProduct(formData)` otherwise. -/
def handleFormSubmit (isEditing : Bool) (currentEditId : Option String)
    (formData : ProductData) : SubmitOutcome :=
  let validation := validateProductData (some formData)
  if !validation.isValid then
    .blocked (annotatedFields validation.errors) validation.errors
  else if isEditing then
    .callsUpdate currentEditId formData
  else
    .callsCreate formData

/-- Constant `MAX_RECONNECT_ATTEMPTS` from `app.js` line 37. -/
def MAX_RECONNECT_ATTEMPTS : Nat := 3

/-- The delay passed to `setTimeout` in `attemptReconnect` (`app.js` line
730), in milliseconds. -/
def RECONNECT_DELAY_MS : Nat := 2000

/-- Observable effects of one `attemptReconnect` call. -/
inductive ReconnectEffect where
  | retryToast : Nat → Nat → ReconnectEffect
  | scheduleReconnect : Nat → ReconnectEffect
  | terminalFailureToast : ReconnectEffect
  deriving DecidableEq, Repr

/-- Function `attemptReconnect` from `app.js` lines 720-734: below the bound it
increments the counter, shows the retry toast and schedules a reconnect
after the fixed delay; at the bound it only shows the terminal failure
toast.  Returns the new `reconnectAttempts` value and the effects. -/
def attemptReconnect (reconnectAttempts : Nat) : Nat × List ReconnectEffect :=
  if reconnectAttempts < MAX_RECONNECT_ATTEMPTS then
    (reconnectAttempts + 1,
     [.retryToast (reconnectAttempts + 1) MAX_RECONNECT_ATTEMPTS,
      .scheduleReconnect RECONNECT_DELAY_MS])
  else
    (reconnectAttempts, [.terminalFailureToast])

/-- Steps performed by the `setTimeout` callback scheduled by
`attemptReconnect` (`app.js` lines 725-730). -/
inductive TimerAction where
  | cancelPriorSubscription : TimerAction
  | startRealTimeListener : TimerAction
  deriving DecidableEq, Repr

/-- The scheduled callback cancels the prior subscription (when one is
active) before reopening the listener. -/
def reconnectTimerBody (hasActiveSubscription : Bool) : List TimerAction :=
  (if hasActiveSubscription then [TimerAction.cancelPriorSubscription] else []) ++
    [TimerAction.startRealTimeListener]

/-- Process `n` consecutive unavailable-class subscription errors, each one
invoking `attemptReconnect` on the current counter (the counter is never
reset anywhere in `app.js`). -/
def runUnavailableErrors : Nat → Nat → List ReconnectEffect
  | _, 0 => []
  | attempts, n + 1 =>
    let r := attemptReconnect attempts
    r.2 ++ runUnavailableErrors r.1 n

/-- A minimally valid record: 2-character name, 10-character description,
price 0, non-empty category. -/
def minimalValidPD : ProductData :=
  { name := .vstr "AB", description := .vstr "0123456789",
    price := .vnum 0, category := .vstr "x" }

/-- A 101-character name. -/
def name101 : String := String.mk (List.replicate 101 'a')

/-- Demo product list for the statistics example: prices 10, 20, 30 in
categories A, A, B. -/
def demoProducts : List Product :=
  [{ id := "1", name := "p one", description := "first demo", price := 10, category := "A" },
   { id := "2", name := "p two", description := "second demo", price := 20, category := "A" },
   { id := "3", name := "p three", description := "third demo", price := 30, category := "B" }]

/-- A product whose only lowercase letters are `a` and `b`. -/
def cexProduct : Product :=
  { id := "1", name := "ab", description := "dd", price := 1, category := "C" }

end CrudSystem

namespace CrudSystem

lemma isPrefixB_iff (l₁ l₂ : List Char) : isPrefixB l₁ l₂ = true ↔ l₁ <+: l₂ := by
  induction l₁ generalizing l₂ with
  | nil => simp [isPrefixB, List.nil_prefix]
  | cons a as ih =>
    cases l₂ with
    | nil => simp [isPrefixB, List.prefix_nil]
    | cons b bs =>
      simp [isPrefixB, List.cons_prefix_cons, ih, Bool.and_eq_true, decide_eq_true_iff]

lemma includesB_iff (needle hay : List Char) : includesB needle hay = true ↔ needle <:+: hay := by
  induction hay with
  | nil => simp [includesB, List.infix_nil, List.isEmpty_iff]
  | cons b rest ih =>
    simp [includesB, Bool.or_eq_true, isPrefixB_iff, ih, List.infix_cons_iff]

lemma strIncludes_iff (hay needle : String) :
    strIncludes hay needle = true ↔ needle.toList <:+: hay.toList :=
  includesB_iff needle.toList hay.toList

lemma includesB_nil_needle (hay : List Char) : includesB [] hay = true := by
  cases hay with
  | nil => rfl
  | cons b rest => simp [includesB, isPrefixB]

lemma toList_mk (l : List Char) : (String.mk l).toList = l := rfl

lemma mk_toList (s : String) : String.mk s.toList = s := rfl

lemma jsToLower_toList (s : String) : (jsToLower s).toList = s.toList.map Char.toLower := rfl

lemma jsTrim_toList (s : String) : (jsTrim s).toList = trimList s.toList := rfl

lemma toLower_of_ws (c : Char) (h : isJsWhitespace c = true) : c.toLower = c := by
  simp only [isJsWhitespace, Bool.or_eq_true, decide_eq_true_iff] at h
  rcases h with ((((h | h) | h) | h) | h) | h <;> subst h <;> decide

lemma trimList_of_ws (l : List Char) (h : ∀ c ∈ l, isJsWhitespace c = true) :
    trimList l = [] := by
  unfold trimList
  rw [List.dropWhile_eq_nil_iff.mpr h]
  rfl

/-- On a non-empty string search text the source reaches the filter branch:
unfolded form of `searchProducts`. -/
lemma searchProducts_eq_filter (t : String) (products : List Product) (h : t ≠ "") :
    searchProducts (.vstr t) products =
      products.filter (fun product =>
        strIncludes (jsToLower product.name) (jsTrim (jsToLower t)) ||
        strIncludes (jsToLower product.description) (jsTrim (jsToLower t)) ||
        strIncludes (jsToLower product.category) (jsTrim (jsToLower t))) := by
  unfold searchProducts
  rw [if_neg]
  · rfl
  · simp [jsFalsy, isStringType, h]

end CrudSystem

namespace CrudSystem

/-- C1: `validateProductData` is a pure total function (a Lean `def`)
accumulating all violations.  Each malformed input below yields
`isValid = false` with a non-empty error list whose message names the
offending field (nombre / descripción / precio / categoría), and the
minimally valid record yields `isValid = true` with an empty error list. -/
theorem validateProductData_spec :
    validateProductData (some { minimalValidPD with name := .vstr "" }) =
      { isValid := false, errors := ["El nombre del producto es requerido"] } ∧
    validateProductData (some { minimalValidPD with name := .vstr "A" }) =
      { isValid := false, errors := ["El nombre debe tener al menos 2 caracteres"] } ∧
    validateProductData (some { minimalValidPD with name := .vstr name101 }) =
      { isValid := false, errors := ["El nombre no puede exceder 100 caracteres"] } ∧
    validateProductData (some { minimalValidPD with description := .vstr "" }) =
      { isValid := false, errors := ["La descripción del producto es requerida"] } ∧
    validateProductData (some { minimalValidPD with description := .vstr "012345678" }) =
      { isValid := false, errors := ["La descripción debe tener al menos 10 caracteres"] } ∧
    validateProductData (some { minimalValidPD with price := .vnum (-1) }) =
      { isValid := false, errors := ["El precio no puede ser negativo"] } ∧
    validateProductData (some { minimalValidPD with price := .vnum 1000000 }) =
      { isValid := false, errors := ["El precio no puede exceder $999,999.99"] } ∧
    validateProductData (some { minimalValidPD with category := .vstr "" }) =
      { isValid := false, errors := ["La categoría del producto es requerida"] } ∧
    validateProductData (some minimalValidPD) = { isValid := true, errors := [] } := by
  refine ⟨?_, ?_, ?_, ?_, ?_, ?_, ?_, ?_, ?_⟩ <;> rfl

/-- C7 counterexample: with the search text `" b"` the record named `"ab"`
is retained, although `" b"` is not a case-insensitive substring of the
name, description or category of the record — the code first trims the text, so
retention is not governed by the untrimmed text. -/
theorem searchProducts_cex :
    searchProducts (.vstr " b") [cexProduct] = [cexProduct] ∧
    strIncludes (jsToLower cexProduct.name) (jsToLower " b") = false ∧
    strIncludes (jsToLower cexProduct.description) (jsToLower " b") = false ∧
    strIncludes (jsToLower cexProduct.category) (jsToLower " b") = false := by
  refine ⟨?_, ?_, ?_, ?_⟩ <;> decide

/-- C7 (amended): an empty search text returns the list unchanged; a text
matching no record returns the empty list; and a record is retained exactly
when the search text, lowercased and trimmed of surrounding whitespace, is a
substring of the lowercased name, description or category — hence matching
is insensitive to the casing of either side. -/
theorem searchProducts_spec :
    (∀ products : List Product, searchProducts (.vstr "") products = products) ∧
    (∀ (t : String) (products : List Product), t ≠ "" →
      (∀ p ∈ products,
        ¬((jsTrim (jsToLower t)).toList <:+: (jsToLower p.name).toList ∨
          (jsTrim (jsToLower t)).toList <:+: (jsToLower p.description).toList ∨
          (jsTrim (jsToLower t)).toList <:+: (jsToLower p.category).toList)) →
      searchProducts (.vstr t) products = []) ∧
    (∀ (t : String) (products : List Product) (p : Product), t ≠ "" →
      (p ∈ searchProducts (.vstr t) products ↔
        p ∈ products ∧
        ((jsTrim (jsToLower t)).toList <:+: (jsToLower p.name).toList ∨
         (jsTrim (jsToLower t)).toList <:+: (jsToLower p.description).toList ∨
         (jsTrim (jsToLower t)).toList <:+: (jsToLower p.category).toList))) ∧
    (∀ (s t : String) (products : List Product), s ≠ "" → t ≠ "" →
      jsToLower s = jsToLower t →
      searchProducts (.vstr s) products = searchProducts (.vstr t) products) := by
  refine ⟨fun products => rfl, ?_, ?_, ?_⟩
  · intro t products ht hnone
    rw [searchProducts_eq_filter t products ht]
    apply List.filter_eq_nil_iff.mpr
    intro p hp
    have h := hnone p hp
    simp only [Bool.or_eq_true, strIncludes_iff]
    tauto
  · intro t products p ht
    rw [searchProducts_eq_filter t products ht, List.mem_filter]
    simp only [Bool.or_eq_true, strIncludes_iff]
    tauto
  · intro s t products hs ht hlow
    rw [searchProducts_eq_filter s products hs, searchProducts_eq_filter t products ht, hlow]

/-- A record of `demoProducts`, used to instantiate retention. -/
def demoP1 : Product :=
  { id := "1", name := "p one", description := "first demo", price := 10, category := "A" }

/-- Witness for C7: searching `"ONE"` retains the record named `"p one"`. -/
theorem searchProducts_spec_witness :
    demoP1 ∈ searchProducts (.vstr "ONE") demoProducts :=
  (searchProducts_spec.2.2.1 "ONE" demoProducts demoP1 (by decide)).mpr
    ⟨by decide, Or.inl ((includesB_iff _ _).mp (by decide))⟩

/-- C9: a non-empty search text made only of whitespace is lowercased and
trimmed to the empty needle, which occurs in every field, so the whole list
is returned in original order — the same result as for the empty text. -/
theorem searchProducts_whitespace_spec :
    ∀ (t : String) (products : List Product), t ≠ "" →
      (∀ c ∈ t.toList, isJsWhitespace c = true) →
      searchProducts (.vstr t) products = products := by
  intro t products ht hws
  rw [searchProducts_eq_filter t products ht]
  have hlow : ∀ c ∈ (jsToLower t).toList, isJsWhitespace c = true := by
    rw [jsToLower_toList]
    intro c hc
    obtain ⟨c', hc', rfl⟩ := List.mem_map.mp hc
    rw [toLower_of_ws c' (hws c' hc')]
    exact hws c' hc'
  have htrim : jsTrim (jsToLower t) = "" := by
    show String.mk (trimList (jsToLower t).toList) = ""
    rw [trimList_of_ws _ hlow]
  rw [htrim]
  apply List.filter_eq_self.mpr
  intro p _
  have h1 : strIncludes (jsToLower p.name) "" = true := includesB_nil_needle _
  simp [h1]

/-- Witness for C9 at the one-space search text. -/
theorem searchProducts_whitespace_witness :
    searchProducts (.vstr " ") demoProducts = demoProducts :=
  searchProducts_whitespace_spec " " demoProducts (by decide) (by decide)

/-- C4: whenever `validateProductData` reports the form data invalid,
`handleFormSubmit` annotates the offending fields and returns blocked — in
neither creating nor editing mode is `updateProduct` or `createProduct`
dispatched. -/
theorem handleFormSubmit_blocks_invalid :
    ∀ (ie : Bool) (cid : Option String) (fd : ProductData),
      (validateProductData (some fd)).isValid = false →
      handleFormSubmit ie cid fd =
        .blocked (annotatedFields (validateProductData (some fd)).errors)
          (validateProductData (some fd)).errors ∧
      (∀ i p, handleFormSubmit ie cid fd ≠ .callsUpdate i p) ∧
      (∀ p, handleFormSubmit ie cid fd ≠ .callsCreate p) := by
  intro ie cid fd h
  refine ⟨?_, ?_, ?_⟩ <;> simp [handleFormSubmit, h]

/-- A form input with an empty name, invalid in editing mode as well. -/
def invalidNamePD : ProductData := { minimalValidPD with name := .vstr "" }

/-- Witness for C4: an empty name blocks submission in editing mode and
annotates the name field. -/
theorem handleFormSubmit_blocks_invalid_witness :
    handleFormSubmit true (some "p1") invalidNamePD =
      .blocked ["name"] ["El nombre del producto es requerido"] := by
  have h := handleFormSubmit_blocks_invalid true (some "p1") invalidNamePD (by decide)
  rw [h.1]
  decide

/-- The effect is a `setTimeout`-scheduled reconnect. -/
def isScheduleEffect : ReconnectEffect → Bool
  | .scheduleReconnect _ => true
  | _ => false

lemma runUnavailableErrors_saturated :
    ∀ (n a : Nat), MAX_RECONNECT_ATTEMPTS ≤ a →
      runUnavailableErrors a n = List.replicate n .terminalFailureToast := by
  intro n
  induction n with
  | zero => intro a _; rfl
  | succ m ih =>
    intro a ha
    have hA : attemptReconnect a = (a, [.terminalFailureToast]) := by
      unfold attemptReconnect
      rw [if_neg (by omega)]
    simp only [runUnavailableErrors, hA]
    simp [ih a ha, List.replicate_succ]

lemma countP_runUnavailable :
    ∀ (n a : Nat), (runUnavailableErrors a n).countP isScheduleEffect =
      min n (MAX_RECONNECT_ATTEMPTS - a) := by
  intro n
  induction n with
  | zero => intro a; simp [runUnavailableErrors]
  | succ m ih =>
    intro a
    by_cases hlt : a < MAX_RECONNECT_ATTEMPTS
    · have hA : attemptReconnect a =
          (a + 1, [.retryToast (a + 1) MAX_RECONNECT_ATTEMPTS,
                   .scheduleReconnect RECONNECT_DELAY_MS]) := by
        unfold attemptReconnect
        rw [if_pos hlt]
      simp only [runUnavailableErrors, hA]
      rw [List.countP_append, ih (a + 1)]
      simp only [MAX_RECONNECT_ATTEMPTS] at hlt ⊢
      simp [List.countP_cons, isScheduleEffect]
      omega
    · have hA : attemptReconnect a = (a, [.terminalFailureToast]) := by
        unfold attemptReconnect
        rw [if_neg hlt]
      simp only [runUnavailableErrors, hA]
      rw [List.countP_append, ih a]
      simp only [MAX_RECONNECT_ATTEMPTS] at hlt ⊢
      simp [List.countP_cons, isScheduleEffect]
      omega

lemma schedule_delay_runUnavailable :
    ∀ (n a d : Nat), ReconnectEffect.scheduleReconnect d ∈ runUnavailableErrors a n →
      d = RECONNECT_DELAY_MS := by
  intro n
  induction n with
  | zero => intro a d h; simp [runUnavailableErrors] at h
  | succ m ih =>
    intro a d h
    by_cases hlt : a < MAX_RECONNECT_ATTEMPTS
    · have hA : attemptReconnect a =
          (a + 1, [.retryToast (a + 1) MAX_RECONNECT_ATTEMPTS,
                   .scheduleReconnect RECONNECT_DELAY_MS]) := by
        unfold attemptReconnect
        rw [if_pos hlt]
      simp only [runUnavailableErrors, hA, List.mem_append, List.mem_cons,
        List.not_mem_nil, or_false] at h
      rcases h with (h | h) | h
      · cases h
      · exact (ReconnectEffect.scheduleReconnect.injEq d RECONNECT_DELAY_MS) ▸ h
      · exact ih (a + 1) d h
    · have hA : attemptReconnect a = (a, [.terminalFailureToast]) := by
        unfold attemptReconnect
        rw [if_neg hlt]
      simp only [runUnavailableErrors, hA, List.mem_append, List.mem_cons,
        List.not_mem_nil, or_false] at h
      rcases h with h | h
      · cases h
      · exact ih a d h

/-- C5: under repeated unavailable-class subscription errors the controller
schedules at most `MAX_RECONNECT_ATTEMPTS = 3` reconnects, each after the
fixed `RECONNECT_DELAY_MS = 2000` delay with the prior subscription
cancelled before reopening, and once the bound is reached every further
error produces only the terminal failure notice. -/
theorem attemptReconnect_bound_spec :
    MAX_RECONNECT_ATTEMPTS = 3 ∧ RECONNECT_DELAY_MS = 2000 ∧
    reconnectTimerBody true =
      [TimerAction.cancelPriorSubscription, TimerAction.startRealTimeListener] ∧
    (∀ n, (runUnavailableErrors 0 n).countP isScheduleEffect =
      min n MAX_RECONNECT_ATTEMPTS) ∧
    (∀ n d, ReconnectEffect.scheduleReconnect d ∈ runUnavailableErrors 0 n →
      d = RECONNECT_DELAY_MS) ∧
    (∀ n, MAX_RECONNECT_ATTEMPTS ≤ n →
      runUnavailableErrors 0 n =
        [ReconnectEffect.retryToast 1 MAX_RECONNECT_ATTEMPTS,
         ReconnectEffect.scheduleReconnect RECONNECT_DELAY_MS,
         ReconnectEffect.retryToast 2 MAX_RECONNECT_ATTEMPTS,
         ReconnectEffect.scheduleReconnect RECONNECT_DELAY_MS,
         ReconnectEffect.retryToast 3 MAX_RECONNECT_ATTEMPTS,
         ReconnectEffect.scheduleReconnect RECONNECT_DELAY_MS] ++
        List.replicate (n - MAX_RECONNECT_ATTEMPTS)
          ReconnectEffect.terminalFailureToast) := by
  refine ⟨rfl, rfl, rfl, ?_, ?_, ?_⟩
  · intro n
    rw [countP_runUnavailable n 0, Nat.sub_zero]
  · intro n d h
    exact schedule_delay_runUnavailable n 0 d h
  · intro n hn
    obtain ⟨m, rfl⟩ : ∃ m, n = m + 3 := by
      refine ⟨n - 3, ?_⟩
      simp only [MAX_RECONNECT_ATTEMPTS] at hn
      omega
    have h3 : runUnavailableErrors 3 m = List.replicate m .terminalFailureToast :=
      runUnavailableErrors_saturated m 3 (by simp [MAX_RECONNECT_ATTEMPTS])
    simp only [runUnavailableErrors]
    norm_num [attemptReconnect, MAX_RECONNECT_ATTEMPTS, RECONNECT_DELAY_MS, h3]

/-- Witness for C5 at five consecutive unavailable errors: three scheduled
reconnects then two terminal failure notices. -/
theorem attemptReconnect_bound_witness :
    runUnavailableErrors 0 5 =
      [ReconnectEffect.retryToast 1 MAX_RECONNECT_ATTEMPTS,
       ReconnectEffect.scheduleReconnect RECONNECT_DELAY_MS,
       ReconnectEffect.retryToast 2 MAX_RECONNECT_ATTEMPTS,
       ReconnectEffect.scheduleReconnect RECONNECT_DELAY_MS,
       ReconnectEffect.retryToast 3 MAX_RECONNECT_ATTEMPTS,
       ReconnectEffect.scheduleReconnect RECONNECT_DELAY_MS] ++
      List.replicate (5 - MAX_RECONNECT_ATTEMPTS) ReconnectEffect.terminalFailureToast :=
  attemptReconnect_bound_spec.2.2.2.2.2 5 (by decide)

/-- Spec-side: a required string field is bad when absent, non-string, or
whitespace-only after trimming. -/
def strFieldBad (v : JSVal) : Bool :=
  !isStringType v || (jsTrim (strOf v)).length == 0

/-- Spec-side, claim C2 as stated: the price is a well-typed non-negative
number, i.e. a (non-NaN) number value `q` with `0 ≤ q`. -/
def isWellTypedNonnegNumber : JSVal → Bool
  | .vnum q => decide (0 ≤ q)
  | _ => false

/-- Spec-side, amended: the price is rejected when it is not of number type
or is a number strictly below zero; NaN is of number type and compares
neither below nor above zero, so it is accepted. -/
def priceFieldBad : JSVal → Bool
  | .vnum q => decide (q < 0)
  | .vnan => false
  | _ => true

lemma strCheck_eq_strFieldBad (v : JSVal) :
    (jsFalsy v || !isStringType v || (jsTrim (strOf v)).length == 0) = strFieldBad v := by
  cases v with
  | vstr s =>
    by_cases hs : s = ""
    · subst hs
      rfl
    · simp [jsFalsy, isStringType, strOf, strFieldBad, hs]
  | vnum q => simp [jsFalsy, isStringType, strFieldBad]
  | vnan => rfl
  | vundef => rfl
  | vnull => rfl
  | vbool b => cases b <;> rfl

lemma priceCheck_eq_priceFieldBad (v : JSVal) :
    (!isNumberType v || jsNumLtZero v) = priceFieldBad v := by
  cases v <;> simp [isNumberType, jsNumLtZero, priceFieldBad]

/-- C6: for any non-empty string identifier, `deleteProduct` wraps the
provider call with no read of the collection first: it succeeds exactly when
the call succeeds, fails with a store error exactly when the call fails,
never raises a validation error here, and — with the modelled Firestore
delete — deleting an identifier absent from the store succeeds and leaves
the store unchanged rather than being reported as an error. -/
theorem deleteProduct_spec :
    ∀ (call : String → Except String Store) (id : String), id ≠ "" →
      (∀ s', deleteProduct call (.vstr id) = .ok s' ↔ call id = .ok s') ∧
      (∀ code, deleteProduct call (.vstr id) = .error (.store code) ↔
        call id = .error code) ∧
      (∀ e, deleteProduct call (.vstr id) ≠ .error (.validation e)) ∧
      (∀ s : Store, (∀ d ∈ s.docs, d.1 ≠ id) →
        deleteProduct (fun i => deleteDocFs s i) (.vstr id) = .ok s) := by
  intro call id h
  have hd : ∀ (c : String → Except String Store),
      deleteProduct c (.vstr id) =
        match c id with
        | .ok s' => .ok s'
        | .error code => .error (.store code) := by
    intro c
    unfold deleteProduct
    rw [if_neg]
    · rfl
    · simp [jsFalsy, isStringType, h]
  refine ⟨?_, ?_, ?_, ?_⟩
  · intro s'
    rw [hd call]
    cases hc : call id <;> simp
  · intro code
    rw [hd call]
    cases hc : call id <;> simp
  · intro e
    rw [hd call]
    cases hc : call id <;> simp
  · intro s hs
    rw [hd (fun i => deleteDocFs s i)]
    have hf : s.docs.filter (fun p => !decide (p.1 = id)) = s.docs := by
      apply List.filter_eq_self.mpr
      intro a ha
      simp [hs a ha]
    show (match deleteDocFs s id with
      | .ok s' => Except.ok s'
      | .error code => Except.error (.store code)) = Except.ok s
    unfold deleteDocFs
    simp [hf]

/-- A store holding one unrelated document, for the delete witness. -/
def demoStoreC6 : Store := { docs := [("a", [])], nextId := 5 }

/-- Witness for C6: deleting the absent identifier `"b"` succeeds and
leaves the store unchanged. -/
theorem deleteProduct_spec_witness :
    deleteProduct (fun i => deleteDocFs demoStoreC6 i) (.vstr "b") = .ok demoStoreC6 :=
  (deleteProduct_spec (fun i => deleteDocFs demoStoreC6 i) "b" (by decide)).2.2.2
    demoStoreC6 (by decide)

lemma find?_setField (d : DocBody) (k k' : String) (v : FieldVal) (hne : k' ≠ k) :
    (setField d k' v).find? (fun p => p.1 = k) = d.find? (fun p => p.1 = k) := by
  induction d with
  | nil => simp [setField, List.find?, hne]
  | cons hd tl ih =>
    obtain ⟨hk, hv⟩ := hd
    simp only [setField]
    by_cases hh : hk = k'
    · rw [if_pos hh]
      subst hh
      simp [List.find?, hne]
    · rw [if_neg hh]
      by_cases hp : hk = k
      · simp [List.find?, hp]
      · simp [List.find?, hp, ih]

lemma lookupField_setField_ne (d : DocBody) (k k' : String) (v : FieldVal) (hne : k' ≠ k) :
    lookupField (setField d k' v) k = lookupField d k := by
  unfold lookupField
  rw [find?_setField d k k' v hne]

lemma lookupField_applyUpdate (payload : DocBody) (doc : DocBody) (k : String)
    (hk : ∀ kv ∈ payload, kv.1 ≠ k) :
    lookupField (applyUpdate doc payload) k = lookupField doc k := by
  induction payload generalizing doc with
  | nil => rfl
  | cons kv rest ih =>
    show lookupField (applyUpdate (setField doc kv.1 kv.2) rest) k = _
    rw [ih (setField doc kv.1 kv.2) (fun kv' h => hk kv' (List.mem_cons_of_mem _ h)),
      lookupField_setField_ne doc k kv.1 kv.2 (hk kv (List.mem_cons_self _ _))]

/-- C3: whenever `updateProduct` succeeds, the payload it hands to
`updateDoc` is exactly the four user fields plus a refreshed `updatedAt` —
it contains no `createdAt` key and no `id` key, so merging it into any
stored document leaves the `createdAt` field of that document untouched. -/
theorem updateProduct_frame :
    ∀ (id : JSVal) (pd : Option ProductData) (payload : DocBody),
      updateProduct id pd = .ok payload →
      (∃ p, pd = some p ∧ payload =
        [("name", FieldVal.str (jsTrim (strOf p.name))),
         ("description", FieldVal.str (jsTrim (strOf p.description))),
         ("price", parseFloatNum p.price),
         ("category", FieldVal.str (jsTrim (strOf p.category))),
         ("updatedAt", FieldVal.serverTimestamp)]) ∧
      payload.map Prod.fst = ["name", "description", "price", "category", "updatedAt"] ∧
      "createdAt" ∉ payload.map Prod.fst ∧
      "id" ∉ payload.map Prod.fst ∧
      (∀ doc, lookupField (applyUpdate doc payload) "createdAt" =
        lookupField doc "createdAt") := by
  intro id pd payload hok
  unfold updateProduct at hok
  split at hok
  · exact absurd hok (by simp)
  · split at hok
    · exact absurd hok (by simp)
    · rename_i q
      split at hok
      · exact absurd hok (by simp)
      · split at hok
        · exact absurd hok (by simp)
        · split at hok
          · exact absurd hok (by simp)
          · split at hok
            · exact absurd hok (by simp)
            · injection hok with hok
              subst hok
              refine ⟨⟨q, rfl, rfl⟩, rfl, by simp, by simp, ?_⟩
              intro doc
              apply lookupField_applyUpdate
              intro kv hkv
              simp only [List.mem_cons, List.not_mem_nil, or_false] at hkv
              rcases hkv with rfl | rfl | rfl | rfl | rfl <;> simp

/-- The payload `updateProduct` produces for the minimally valid record. -/
def validUpdatePayload : DocBody :=
  [("name", .str "AB"), ("description", .str "0123456789"), ("price", .num 0),
   ("category", .str "x"), ("updatedAt", .serverTimestamp)]

/-- A stored document carrying a `createdAt` field, for the frame witness. -/
def demoDoc : DocBody :=
  [("name", .str "old"), ("description", .str "old description"), ("price", .num 5),
   ("category", .str "C"), ("createdAt", .serverTimestamp), ("updatedAt", .serverTimestamp)]

/-- Witness for C3: a concrete successful update leaves `createdAt` of the
stored document unchanged. -/
theorem updateProduct_frame_witness :
    lookupField (applyUpdate demoDoc validUpdatePayload) "createdAt" =
      lookupField demoDoc "createdAt" :=
  (updateProduct_frame (.vstr "p1") (some minimalValidPD) validUpdatePayload
    (by rfl)).2.2.2.2 demoDoc

/-- The document body `createProduct` saves for the fields of `p`. -/
def createBody (p : ProductData) : DocBody :=
  [("name", .str (jsTrim (strOf p.name))),
   ("description", .str (jsTrim (strOf p.description))),
   ("price", parseFloatNum p.price),
   ("category", .str (jsTrim (strOf p.category))),
   ("createdAt", .serverTimestamp),
   ("updatedAt", .serverTimestamp)]

/-- The payload `updateProduct` writes for the fields of `p`. -/
def updateBody (p : ProductData) : DocBody :=
  [("name", .str (jsTrim (strOf p.name))),
   ("description", .str (jsTrim (strOf p.description))),
   ("price", parseFloatNum p.price),
   ("category", .str (jsTrim (strOf p.category))),
   ("updatedAt", .serverTimestamp)]

lemma createProduct_eq (s : Store) (p : ProductData) :
    createProduct s (some p) =
      if strFieldBad p.name then
        .error (.validation "El nombre del producto es requerido")
      else if strFieldBad p.description then
        .error (.validation "La descripción del producto es requerida")
      else if priceFieldBad p.price then
        .error (.validation "El precio debe ser un número válido mayor o igual a 0")
      else if strFieldBad p.category then
        .error (.validation "La categoría del producto es requerida")
      else .ok (addDoc s (createBody p)) := by
  unfold createProduct createBody
  simp only [strCheck_eq_strFieldBad, priceCheck_eq_priceFieldBad]

lemma updateProduct_eq (id : String) (h : id ≠ "") (p : ProductData) :
    updateProduct (.vstr id) (some p) =
      if strFieldBad p.name then
        .error (.validation "El nombre del producto es requerido")
      else if strFieldBad p.description then
        .error (.validation "La descripción del producto es requerida")
      else if priceFieldBad p.price then
        .error (.validation "El precio debe ser un número válido mayor o igual a 0")
      else if strFieldBad p.category then
        .error (.validation "La categoría del producto es requerida")
      else .ok (updateBody p) := by
  unfold updateProduct updateBody
  rw [if_neg]
  · simp only [strCheck_eq_strFieldBad, priceCheck_eq_priceFieldBad]
  · simp [jsFalsy, isStringType, h]

lemma updateProduct_none (id : String) (h : id ≠ "") :
    updateProduct (.vstr id) none =
      .error (.validation "Los datos del producto son requeridos") := by
  unfold updateProduct
  rw [if_neg]
  simp [jsFalsy, isStringType, h]

/-- C2 counterexample: the price `NaN` is of number type but is not a
well-typed non-negative number (it compares neither below nor at-or-above
zero), yet `createProduct` raises no validation error for it — it inserts
the record with a NaN price and returns the assigned id. -/
theorem createProduct_nan_cex :
    isWellTypedNonnegNumber JSVal.vnan = false ∧
    createProduct { docs := [], nextId := 0 }
        (some { minimalValidPD with price := JSVal.vnan }) =
      .ok ({ docs := [("doc0",
              [("name", FieldVal.str "AB"), ("description", FieldVal.str "0123456789"),
               ("price", FieldVal.numNaN), ("category", FieldVal.str "x"),
               ("createdAt", FieldVal.serverTimestamp),
               ("updatedAt", FieldVal.serverTimestamp)])], nextId := 1 }, "doc0") :=
  ⟨rfl, rfl⟩

/-- C2 (amended): `createProduct` raises a validation error — and performs
no insert — exactly when the data object is missing, a string field (name,
description, category) is absent, non-string or whitespace-only, or the
price is not of number type or is a number strictly below zero (NaN, being
of number type and not below zero, is accepted); otherwise it appends one
document built from the trimmed string fields and the parsed price, with
creation and update timestamps stamped, and returns the assigned id. -/
theorem createProduct_spec :
    ∀ (s : Store) (pd : Option ProductData),
      ((∃ e, createProduct s pd = .error (CrudError.validation e)) ↔
        (pd = none ∨ ∃ p, pd = some p ∧
          (strFieldBad p.name = true ∨ strFieldBad p.description = true ∨
           priceFieldBad p.price = true ∨ strFieldBad p.category = true))) ∧
      (∀ p s' id, pd = some p → createProduct s pd = .ok (s', id) →
        id = "doc" ++ toString s.nextId ∧
        s'.docs = s.docs ++ [(id, createBody p)]) := by
  intro s pd
  cases pd with
  | none =>
    refine ⟨⟨fun _ => Or.inl rfl,
      fun _ => ⟨"Los datos del producto son requeridos", rfl⟩⟩, ?_⟩
    intro p s' id hp
    cases hp
  | some p =>
    rw [createProduct_eq s p]
    by_cases b1 : strFieldBad p.name = true
    · rw [if_pos b1]
      refine ⟨⟨fun _ => Or.inr ⟨p, rfl, Or.inl b1⟩, fun _ => ⟨_, rfl⟩⟩, ?_⟩
      intro p' s' id _ hok
      cases hok
    · rw [if_neg b1]
      by_cases b2 : strFieldBad p.description = true
      · rw [if_pos b2]
        refine ⟨⟨fun _ => Or.inr ⟨p, rfl, Or.inr (Or.inl b2)⟩, fun _ => ⟨_, rfl⟩⟩, ?_⟩
        intro p' s' id _ hok
        cases hok
      · rw [if_neg b2]
        by_cases b3 : priceFieldBad p.price = true
        · rw [if_pos b3]
          refine ⟨⟨fun _ => Or.inr ⟨p, rfl, Or.inr (Or.inr (Or.inl b3))⟩,
            fun _ => ⟨_, rfl⟩⟩, ?_⟩
          intro p' s' id _ hok
          cases hok
        · rw [if_neg b3]
          by_cases b4 : strFieldBad p.category = true
          · rw [if_pos b4]
            refine ⟨⟨fun _ => Or.inr ⟨p, rfl, Or.inr (Or.inr (Or.inr b4))⟩,
              fun _ => ⟨_, rfl⟩⟩, ?_⟩
            intro p' s' id _ hok
            cases hok
          · rw [if_neg b4]
            constructor
            · constructor
              · rintro ⟨e, he⟩
                cases he
              · rintro (h | ⟨p', hp', hbad⟩)
                · cases h
                · injection hp' with hp'
                  subst hp'
                  rcases hbad with hb | hb | hb | hb
                  · exact absurd hb b1
                  · exact absurd hb b2
                  · exact absurd hb b3
                  · exact absurd hb b4
            · intro p' s' id hp hok
              injection hp with hp
              subst hp
              injection hok with hok
              unfold addDoc at hok
              rw [Prod.mk.injEq] at hok
              obtain ⟨h1, h2⟩ := hok
              subst h2
              refine ⟨rfl, ?_⟩
              rw [← h1]

/-- The document body saved for the minimally valid record. -/
def validCreateBody : DocBody :=
  [("name", .str "AB"), ("description", .str "0123456789"), ("price", .num 0),
   ("category", .str "x"), ("createdAt", .serverTimestamp),
   ("updatedAt", .serverTimestamp)]

/-- Witness for C2: creating the minimally valid record in an empty store
assigns id `"doc0"` and appends exactly one document. -/
theorem createProduct_spec_witness :
    "doc0" = "doc" ++ toString (0 : Nat) ∧
    ([("doc0", validCreateBody)] : List (String × DocBody)) =
      [] ++ [("doc0", validCreateBody)] :=
  (createProduct_spec { docs := [], nextId := 0 } (some minimalValidPD)).2
    minimalValidPD { docs := [("doc0", validCreateBody)], nextId := 1 } "doc0" rfl (by rfl)

/-- C10: `createProduct` and `updateProduct` apply the same acceptance
predicate — given any store and any valid identifier, one raises a
validation error exactly when the other does, with the same message — and
when both accept, the trimmed name, description, category and parsed price
they write are the same values (the inserted body is the update payload
plus the `createdAt` stamp). -/
theorem create_update_equiv :
    ∀ (s : Store) (pd : Option ProductData) (id : String), id ≠ "" →
      (∀ e : CrudError, createProduct s pd = .error e ↔
        updateProduct (.vstr id) pd = .error e) ∧
      (∀ s' cid, createProduct s pd = .ok (s', cid) →
        ∃ p, pd = some p ∧
          updateProduct (.vstr id) pd = .ok (updateBody p) ∧
          s'.docs = s.docs ++ [(cid, createBody p)] ∧
          (∀ k, k = "name" ∨ k = "description" ∨ k = "price" ∨ k = "category" →
            lookupField (createBody p) k = lookupField (updateBody p) k)) ∧
      (∀ payload, updateProduct (.vstr id) pd = .ok payload →
        ∃ s' cid, createProduct s pd = .ok (s', cid)) := by
  intro s pd id h
  cases pd with
  | none =>
    rw [updateProduct_none id h]
    refine ⟨fun e => by simp [createProduct], ?_, ?_⟩
    · intro s' cid hok
      exact absurd hok (by simp [createProduct])
    · intro payload hok
      cases hok
  | some p =>
    rw [createProduct_eq s p, updateProduct_eq id h p]
    by_cases b1 : strFieldBad p.name = true
    · rw [if_pos b1, if_pos b1]
      refine ⟨fun e => by simp, ?_, ?_⟩
      · intro s' cid hok
        cases hok
      · intro payload hok
        cases hok
    · rw [if_neg b1, if_neg b1]
      by_cases b2 : strFieldBad p.description = true
      · rw [if_pos b2, if_pos b2]
        refine ⟨fun e => by simp, ?_, ?_⟩
        · intro s' cid hok
          cases hok
        · intro payload hok
          cases hok
      · rw [if_neg b2, if_neg b2]
        by_cases b3 : priceFieldBad p.price = true
        · rw [if_pos b3, if_pos b3]
          refine ⟨fun e => by simp, ?_, ?_⟩
          · intro s' cid hok
            cases hok
          · intro payload hok
            cases hok
        · rw [if_neg b3, if_neg b3]
          by_cases b4 : strFieldBad p.category = true
          · rw [if_pos b4, if_pos b4]
            refine ⟨fun e => by simp, ?_, ?_⟩
            · intro s' cid hok
              cases hok
            · intro payload hok
              cases hok
          · rw [if_neg b4, if_neg b4]
            refine ⟨?_, ?_, ?_⟩
            · intro e
              constructor
              · intro he
                cases he
              · intro he
                cases he
            · intro s' cid hok
              injection hok with hok
              unfold addDoc at hok
              rw [Prod.mk.injEq] at hok
              obtain ⟨h1, h2⟩ := hok
              subst h2
              refine ⟨p, rfl, rfl, ?_, ?_⟩
              · rw [← h1]
              · intro k hk
                rcases hk with rfl | rfl | rfl | rfl <;> rfl
            · intro payload _
              exact ⟨_, _, rfl⟩

/-- Witness for C10: for the invalid empty-name record, `createProduct` and
`updateProduct` raise the same validation error. -/
theorem create_update_equiv_witness :
    createProduct { docs := [], nextId := 0 } (some invalidNamePD) =
        .error (.validation "El nombre del producto es requerido") ↔
      updateProduct (.vstr "p9") (some invalidNamePD) =
        .error (.validation "El nombre del producto es requerido") :=
  (create_update_equiv { docs := [], nextId := 0 } (some invalidNamePD) "p9"
    (by decide)).1 (.validation "El nombre del producto es requerido")

lemma foldl_statsStep_fst :
    ∀ (l : List Product) (acc : ℚ × ℚ × List (String × Nat)),
      (l.foldl statsStep acc).1 = acc.1 + (l.map (fun p => p.price)).sum := by
  intro l
  induction l with
  | nil => intro acc; simp
  | cons p tl ih =>
    intro acc
    simp only [List.foldl_cons, List.map_cons, List.sum_cons]
    rw [ih]
    simp [statsStep, add_assoc]

lemma foldl_statsStep_totalValue :
    ∀ (l : List Product) (acc : ℚ × ℚ × List (String × Nat)),
      (l.foldl statsStep acc).2.1 = acc.2.1 + (l.map (fun p => p.price)).sum := by
  intro l
  induction l with
  | nil => intro acc; simp
  | cons p tl ih =>
    intro acc
    simp only [List.foldl_cons, List.map_cons, List.sum_cons]
    rw [ih]
    simp [statsStep, add_assoc]

lemma categoryCount_nil (c : String) : categoryCount [] c = 0 := rfl

lemma categoryCount_cons (k : String) (n : Nat) (tl : List (String × Nat)) (c : String) :
    categoryCount ((k, n) :: tl) c = if k = c then n else categoryCount tl c := by
  unfold categoryCount
  by_cases h : k = c
  · simp [List.find?, h]
  · simp [List.find?, h]

lemma categoryCount_bump (m : List (String × Nat)) (c c' : String) :
    categoryCount (bumpCategory m c) c' =
      categoryCount m c' + (if c' = c then 1 else 0) := by
  induction m with
  | nil =>
    show categoryCount [(c, 1)] c' = categoryCount [] c' + _
    rw [categoryCount_cons]
    by_cases h : c = c'
    · subst h
      simp [categoryCount_nil]
    · rw [if_neg h, if_neg (fun hh => h hh.symm)]
      rfl
  | cons kv tl ih =>
    obtain ⟨k, n⟩ := kv
    show categoryCount (if k = c then (k, n + 1) :: tl else (k, n) :: bumpCategory tl c) c' = _
    by_cases hk : k = c
    · rw [if_pos hk, categoryCount_cons, categoryCount_cons]
      by_cases h' : k = c'
      · rw [if_pos h', if_pos h', if_pos (h'.symm.trans hk)]
      · rw [if_neg h', if_neg h', if_neg (fun hh => h' (hk.trans hh.symm))]
        rfl
    · rw [if_neg hk, categoryCount_cons, categoryCount_cons]
      by_cases h' : k = c'
      · rw [if_pos h', if_pos h', if_neg (fun hh => hk (h'.trans hh))]
        rfl
      · rw [if_neg h', if_neg h']
        exact ih

lemma foldl_statsStep_categories :
    ∀ (l : List Product) (acc : ℚ × ℚ × List (String × Nat)) (c : String),
      categoryCount (l.foldl statsStep acc).2.2 c =
        categoryCount acc.2.2 c + l.countP (fun p => p.category = c) := by
  intro l
  induction l with
  | nil => intro acc c; simp
  | cons p tl ih =>
    intro acc c
    simp only [List.foldl_cons, List.countP_cons]
    rw [ih]
    show categoryCount (bumpCategory acc.2.2 p.category) c + _ = _
    rw [categoryCount_bump]
    by_cases h : p.category = c
    · rw [if_pos h.symm, decide_eq_true h]
      simp
      omega
    · rw [if_neg (fun hh => h hh.symm), decide_eq_false h]
      simp

/-- C8: `getProductStats` of the empty list is all zeros; of three records
priced 10, 20, 30 in categories A, A, B it is total 3, average 20, value 60
with counts A: 2, B: 1; and in general `total` is the record count,
`totalValue` the sum of the prices, `averagePrice` their arithmetic mean
(zero on the empty list), and `categories` the per-category count map. -/
theorem getProductStats_spec :
    getProductStats [] =
      { total := 0, averagePrice := 0, categories := [], totalValue := 0 } ∧
    getProductStats demoProducts =
      { total := 3, averagePrice := 20, categories := [("A", 2), ("B", 1)],
        totalValue := 60 } ∧
    (∀ products : List Product,
      (getProductStats products).total = products.length ∧
      (getProductStats products).totalValue = (products.map (fun p => p.price)).sum ∧
      (products = [] → (getProductStats products).averagePrice = 0) ∧
      (products ≠ [] → (getProductStats products).averagePrice =
        (products.map (fun p => p.price)).sum / (products.length : ℚ)) ∧
      (∀ c, categoryCount (getProductStats products).categories c =
        products.countP (fun p => p.category = c))) := by
  refine ⟨rfl, ?_, ?_⟩
  · have hform : getProductStats demoProducts =
        { total := demoProducts.length,
          averagePrice :=
            (demoProducts.foldl statsStep (0, 0, [])).1 / (demoProducts.length : ℚ),
          categories := (demoProducts.foldl statsStep (0, 0, [])).2.2,
          totalValue := (demoProducts.foldl statsStep (0, 0, [])).2.1 } := by
      unfold getProductStats
      rw [if_neg (by decide)]
    rw [hform]
    have h1 : (demoProducts.foldl statsStep
        ((0 : ℚ), (0 : ℚ), ([] : List (String × Nat)))).1 = 60 := by
      rw [foldl_statsStep_fst]
      show (0 : ℚ) + _ = 60
      norm_num [demoProducts]
    have h2 : (demoProducts.foldl statsStep
        ((0 : ℚ), (0 : ℚ), ([] : List (String × Nat)))).2.1 = 60 := by
      rw [foldl_statsStep_totalValue]
      show (0 : ℚ) + _ = 60
      norm_num [demoProducts]
    have h3 : (demoProducts.foldl statsStep
        ((0 : ℚ), (0 : ℚ), ([] : List (String × Nat)))).2.2 = [("A", 2), ("B", 1)] := rfl
    rw [h1, h2, h3, show demoProducts.length = 3 from rfl]
    rw [ProductStats.mk.injEq]
    refine ⟨rfl, by norm_num, rfl, rfl⟩
  · intro products
    by_cases hlen : products.length = 0
    · have hnil : products = [] := List.length_eq_zero.mp hlen
      subst hnil
      exact ⟨rfl, rfl, fun _ => rfl, fun hne => absurd rfl hne, fun c => rfl⟩
    · have hform : getProductStats products =
          { total := products.length,
            averagePrice :=
              (products.foldl statsStep (0, 0, [])).1 / (products.length : ℚ),
            categories := (products.foldl statsStep (0, 0, [])).2.2,
            totalValue := (products.foldl statsStep (0, 0, [])).2.1 } := by
        unfold getProductStats
        rw [if_neg hlen]
      rw [hform]
      refine ⟨rfl, ?_, ?_, ?_, ?_⟩
      · show (products.foldl statsStep (0, 0, [])).2.1 = _
        rw [foldl_statsStep_totalValue]
        simp
      · intro h
        rw [h] at hlen
        exact absurd rfl hlen
      · intro _
        show (products.foldl statsStep (0, 0, [])).1 / ((products.length : ℚ)) = _
        rw [foldl_statsStep_fst]
        simp
      · intro c
        show categoryCount (products.foldl statsStep (0, 0, [])).2.2 c = _
        rw [foldl_statsStep_categories]
        simp [categoryCount]

/-- Witness for C8: on the demo list the average price is the sum of the
prices divided by the record count. -/
theorem getProductStats_spec_witness :
    (getProductStats demoProducts).averagePrice =
      (demoProducts.map (fun p => p.price)).sum / (demoProducts.length : ℚ) :=
  ((getProductStats_spec.2.2 demoProducts).2.2.2.1) (by decide)

end CrudSystem
